import Mathlib

/-!
Verification development for pb740-export (src/export.py), a one-file
exporter that reads a PocketBook 740 annotation database (an
Items/Tags/TagNames entity-attribute-value schema inside sqlite) and
renders the highlights, notes and bookmarks of every book into a single
HTML document.

The embedding below translates the Python source faithfully:

  * sqlite rows become Lean structures, tables become lists of rows, and
    each SQL query in the source becomes the corresponding nested-loop
    join over those lists (the order of the embedded result lists is the
    table order, which models the stable but unspecified order sqlite
    returns rows in for these un-ordered queries);
  * Python exceptions become `Except PyErr`; the source installs no
    handler anywhere, so an error raised while processing one item
    propagates out of the enclosing function, exactly as `Except.bind`
    propagates `Except.error`;
  * `json.loads` is modelled by an executable recursive-descent parser
    over the JSON fragment this database uses (objects, arrays, strings
    with escapes, integer numbers, `true`/`false`/`null`); numbers with a
    fraction or exponent are rejected by the model, which is noted where
    it matters;
  * `urllib.parse.urlparse` / `parse_qs` and `int(...)` are modelled on
    lists of characters following the CPython algorithms (percent escapes
    are decoded over the ASCII range);
  * the dominate HTML library is modelled by a small tree type `Html`;
    building a tag with a `None` child is modelled as producing the tag
    with no text child; `datetime.fromtimestamp` is modelled abstractly
    as a wrapper around the epoch value, since no claim depends on the
    civil-calendar rendering of a timestamp, only on it being a function
    of the stored epoch seconds;
  * the write of the output file is modelled as an explicit effect value
    produced after the document has been fully built, mirroring the
    order of operations in `main` and `export`.
-/

/-- Python exceptions that the embedded code can raise. -/
inductive PyErr where
  | jsonDecodeError
  | typeError
  | keyError (k : String)
  | valueError
deriving DecidableEq, Repr

/-- A value stored in a sqlite column: text, blob (a list of byte
values), integer or NULL.  The source reads tag values, titles, authors
and file names out of such columns. -/
inductive DBVal where
  | str (s : String)
  | blob (bs : List Nat)
  | int (n : Int)
  | null
deriving DecidableEq, Repr

/-- A Python value produced by `json.loads`: the JSON data model. -/
inductive PyVal where
  | str (s : String)
  | int (n : Int)
  | bool (b : Bool)
  | null
  | list (xs : List PyVal)
  | dict (kvs : List (String × PyVal))

/-- Characters that JSON treats as insignificant whitespace. -/
def jsonWs (c : Char) : Bool :=
  c = ' ' ∨ c = '\t' ∨ c = '\n' ∨ c = '\r'

/-- Drop leading JSON whitespace. -/
def skipWs : List Char → List Char
  | [] => []
  | c :: cs => if jsonWs c then skipWs cs else c :: cs

/-- Numeric value of a hex digit, if the character is one. -/
def hexVal (c : Char) : Option Nat :=
  if '0' ≤ c ∧ c ≤ '9' then some (c.toNat - '0'.toNat)
  else if 'a' ≤ c ∧ c ≤ 'f' then some (c.toNat - 'a'.toNat + 10)
  else if 'A' ≤ c ∧ c ≤ 'F' then some (c.toNat - 'A'.toNat + 10)
  else none

/-- The opening brace character of a JSON object. -/
def lbrace : Char := Char.ofNat 123

/-- The closing brace character of a JSON object. -/
def rbrace : Char := Char.ofNat 125

/-- Parse the body of a JSON string literal, after the opening quote.
Returns the decoded characters and the rest of the input after the
closing quote.  Handles the JSON escape sequences. -/
def parseStringBody : List Char → Option (List Char × List Char)
  | [] => none
  | '"' :: rest => some ([], rest)
  | '\\' :: 'u' :: h1 :: h2 :: h3 :: h4 :: rest =>
    match hexVal h1, hexVal h2, hexVal h3, hexVal h4 with
    | some a, some b, some c, some d =>
      (parseStringBody rest).map fun (s, r) =>
        (Char.ofNat (((a * 16 + b) * 16 + c) * 16 + d) :: s, r)
    | _, _, _, _ => none
  | '\\' :: e :: rest =>
    let dec : Option Char :=
      if e = '"' then some '"'
      else if e = '\\' then some '\\'
      else if e = '/' then some '/'
      else if e = 'b' then some (Char.ofNat 8)
      else if e = 'f' then some (Char.ofNat 12)
      else if e = 'n' then some '\n'
      else if e = 'r' then some '\r'
      else if e = 't' then some '\t'
      else none
    match dec with
    | some c => (parseStringBody rest).map fun (s, r) => (c :: s, r)
    | none => none
  | c :: rest =>
    (parseStringBody rest).map fun (s, r) => (c :: s, r)

/-- Parse a JSON integer numeral (optional minus sign, digits, no
leading zero).  The model covers the integer fragment of JSON numbers;
fractions and exponents are rejected. -/
def parseNumber (cs : List Char) : Option (Int × List Char) :=
  let (neg, cs) : Bool × List Char :=
    match cs with
    | '-' :: rest => (true, rest)
    | _ => (false, cs)
  let ds := cs.takeWhile (·.isDigit)
  let rest := cs.dropWhile (·.isDigit)
  if ds = [] then none
  else if ds.length > 1 ∧ ds.headD '0' = '0' then none
  else
    match rest with
    | '.' :: _ => none
    | 'e' :: _ => none
    | 'E' :: _ => none
    | _ =>
      let n : Nat := ds.foldl (fun a c => 10 * a + (c.toNat - '0'.toNat)) 0
      some (if neg then -(n : Int) else (n : Int), rest)

mutual

/-- Parse one JSON value.  Fuel-indexed recursive descent; the callers
supply fuel larger than the input length, which is always sufficient
because every recursive call follows the consumption of at least one
input character. -/
def parseVal : Nat → List Char → Option (PyVal × List Char)
  | 0, _ => none
  | fuel + 1, cs =>
    match skipWs cs with
    | [] => none
    | 'n' :: 'u' :: 'l' :: 'l' :: rest => some (.null, rest)
    | 't' :: 'r' :: 'u' :: 'e' :: rest => some (.bool true, rest)
    | 'f' :: 'a' :: 'l' :: 's' :: 'e' :: rest => some (.bool false, rest)
    | '"' :: rest =>
      (parseStringBody rest).map fun (s, r) => (.str (String.mk s), r)
    | '[' :: rest =>
      (match skipWs rest with
       | ']' :: r2 => some (.list [], r2)
       | _ =>
         (parseItems fuel rest).map fun (xs, r2) => (.list xs, r2))
    | c :: rest =>
      if c = lbrace then
        match skipWs rest with
        | c2 :: r2 =>
          if c2 = rbrace then some (.dict [], r2)
          else
            (parseMembers fuel (c2 :: r2)).map fun (kvs, r3) => (.dict kvs, r3)
        | [] => none
      else
        (parseNumber (c :: rest)).map fun (n, r2) => (.int n, r2)

/-- Parse the comma-separated items of a JSON array, and the closing
bracket. -/
def parseItems : Nat → List Char → Option (List PyVal × List Char)
  | 0, _ => none
  | fuel + 1, cs =>
    match parseVal fuel cs with
    | none => none
    | some (v, rest) =>
      match skipWs rest with
      | ',' :: r2 =>
        (parseItems fuel r2).map fun (xs, r3) => (v :: xs, r3)
      | ']' :: r2 => some ([v], r2)
      | _ => none

/-- Parse the comma-separated members of a JSON object, and the closing
brace. -/
def parseMembers : Nat → List Char → Option (List (String × PyVal) × List Char)
  | 0, _ => none
  | fuel + 1, cs =>
    match skipWs cs with
    | '"' :: rest =>
      match parseStringBody rest with
      | none => none
      | some (k, r2) =>
        match skipWs r2 with
        | ':' :: r3 =>
          match parseVal fuel r3 with
          | none => none
          | some (v, r4) =>
            match skipWs r4 with
            | ',' :: r5 =>
              (parseMembers fuel r5).map fun (kvs, r6) =>
                ((String.mk k, v) :: kvs, r6)
            | c :: r5 =>
              if c = rbrace then some ([(String.mk k, v)], r5) else none
            | [] => none
        | _ => none
    | _ => none

end

/-- Parse a whole JSON document from a list of characters: one value,
surrounded only by whitespace. -/
def jsonParse (cs : List Char) : Except PyErr PyVal :=
  match parseVal (2 * cs.length + 2) cs with
  | some (v, rest) =>
    if skipWs rest = [] then .ok v else .error .jsonDecodeError
  | none => .error .jsonDecodeError

/-- The Python call `json.loads(x)` on the raw value of a sqlite column.
A text value is parsed directly; a blob is decoded as a byte string
first (the model covers ASCII blobs); `None` raises `TypeError`, as
`json.loads(None)` does; an integer column value also raises
`TypeError`. -/
def json_loads : Option DBVal → Except PyErr PyVal
  | none => .error .typeError
  | some (.str s) => jsonParse s.data
  | some (.blob bs) =>
    if bs.all (· < 128) then jsonParse (bs.map Char.ofNat)
    else .error .jsonDecodeError
  | some (.int _) => .error .typeError
  | some .null => .error .typeError

/-- The Python subscript `o[k]` on a decoded JSON value: a `KeyError`
when the key is absent from an object, a `TypeError` when the value is
not an object (string subscripts on lists or scalars).  Duplicate JSON
keys keep the last occurrence, as the Python dict built by the decoder
does. -/
def pyGetItem (o : PyVal) (k : String) : Except PyErr PyVal :=
  match o with
  | .dict kvs =>
    match (kvs.reverse.find? fun kv => kv.1 = k) with
    | some kv => .ok kv.2
    | none => .error (.keyError k)
  | _ => .error .typeError

/-- Python string split on a single separator character: every piece is
kept, including empty ones, as in `qs.split(sep)`. -/
def splitOnChar (sep : Char) : List Char → List (List Char)
  | [] => [[]]
  | c :: cs =>
    match splitOnChar sep cs with
    | [] => [[]]
    | g :: gs => if c = sep then [] :: g :: gs else (c :: g) :: gs

/-- Split a list at the first occurrence of a character, as in
`s.split(sep, 1)`: the part before it, and, when the character occurs,
the part after it. -/
def breakAtChar (sep : Char) : List Char → List Char × Option (List Char)
  | [] => ([], none)
  | c :: cs =>
    if c = sep then ([], some cs)
    else
      let (a, b) := breakAtChar sep cs
      (c :: a, b)

/-- The query component that `urllib.parse.urlparse` extracts from a
URL: tab, carriage-return and newline characters are removed anywhere
in the URL, the fragment is split off at the first hash sign, and the
query is what follows the first question mark of the remainder.  Scheme
and netloc splitting never move the question mark or the hash sign, so
they do not affect the query component. -/
def urlparse_query (s : String) : List Char :=
  let cs := s.data.filter fun c => ¬(c = '\t' ∨ c = '\r' ∨ c = '\n')
  let noFrag := (breakAtChar '#' cs).1
  ((breakAtChar '?' noFrag).2).getD []

/-- The decoding `urllib.parse.unquote_plus` applies to each name and
value of a query string: plus signs become spaces and percent escapes
are decoded (the model decodes escapes over the ASCII range; a percent
sign not followed by two hex digits is kept as is, as in CPython). -/
def unquote_plus : List Char → List Char
  | [] => []
  | '+' :: cs => ' ' :: unquote_plus cs
  | '%' :: c1 :: c2 :: cs =>
    match hexVal c1, hexVal c2 with
    | some a, some b => Char.ofNat (16 * a + b) :: unquote_plus cs
    | _, _ => '%' :: unquote_plus (c1 :: c2 :: cs)
  | c :: cs => c :: unquote_plus cs

/-- The pair list `urllib.parse.parse_qsl` builds from a query string
with default options: split on ampersands, skip empty fields, skip
fields without an equals sign and fields with an empty value (blank
values are not kept), and percent-decode each name and value. -/
def parse_qsl (qs : List Char) : List (List Char × List Char) :=
  (splitOnChar '&' qs).filterMap fun nv =>
    match nv with
    | [] => none
    | _ =>
      match breakAtChar '=' nv with
      | (_, none) => none
      | (_, some []) => none
      | (n, some v) => some (unquote_plus n, unquote_plus v)

/-- The list `urllib.parse.parse_qs(qs)[key]` would hold: all values of
the key, in order of appearance.  An empty result means `parse_qs`
produced no entry for the key, so the subscript raises `KeyError`. -/
def parse_qs_get (qs : List Char) (key : List Char) : List (List Char) :=
  (parse_qsl qs).filterMap fun p => if p.1 = key then some p.2 else none

/-- Characters `int(...)` strips from both ends of its string argument
(the ASCII whitespace fragment of the Python rule). -/
def isPySpace (c : Char) : Bool :=
  c = ' ' ∨ c = '\t' ∨ c = '\n' ∨ c = '\r' ∨ c = Char.ofNat 11 ∨ c = Char.ofNat 12

/-- Strip leading and trailing whitespace, as `int(...)` does. -/
def pyStrip (cs : List Char) : List Char :=
  ((cs.dropWhile isPySpace).reverse.dropWhile isPySpace).reverse

/-- The value of a list of decimal digit characters. -/
def digitsToNat (cs : List Char) : Nat :=
  cs.foldl (fun a c => 10 * a + (c.toNat - '0'.toNat)) 0

/-- The Python conversion `int(s)` on a string: strip whitespace, allow
one optional sign, then require a nonempty run of decimal digits;
anything else raises `ValueError`.  Underscore digit separators are not
covered by the model. -/
def python_int (s : List Char) : Except PyErr Int :=
  match pyStrip s with
  | '+' :: r =>
    if r ≠ [] ∧ r.all (·.isDigit) then .ok (digitsToNat r : Int)
    else .error .valueError
  | '-' :: r =>
    if r ≠ [] ∧ r.all (·.isDigit) then .ok (-(digitsToNat r : Int))
    else .error .valueError
  | r =>
    if r ≠ [] ∧ r.all (·.isDigit) then .ok (digitsToNat r : Int)
    else .error .valueError

/-- The result of `datetime.fromtimestamp`, modelled abstractly by the
epoch value it was built from: no claim depends on the civil-calendar
fields, only on the timestamp being a function of the stored epoch
seconds. -/
structure Datetime where
  epoch : Int
deriving DecidableEq, Repr

/-- The Python call `datetime.fromtimestamp(x)` on a decoded JSON
value: defined for numbers (the model covers integers; a JSON boolean
is a Python int subclass and is accepted), `TypeError` otherwise. -/
def datetime_fromtimestamp : PyVal → Except PyErr Datetime
  | .int n => .ok ⟨n⟩
  | .bool b => .ok ⟨if b then 1 else 0⟩
  | _ => .error .typeError

/-- Extract the string out of a decoded JSON value, as the functions of
`urllib.parse` require a string argument; any other value raises
`TypeError`. -/
def expectStr : PyVal → Except PyErr String
  | .str s => .ok s
  | _ => .error .typeError

/-- A row of the Books table, as read by `get_books`: `row[0]` the oid,
`row[1]` the title, `row[2]` the authors column, which may be NULL. -/
structure BookRow where
  oid : Int
  title : String
  authors : Option String
deriving DecidableEq, Repr

/-- A row of the Files table, as read by `get_file_name`. -/
structure FileRow where
  bookID : Int
  name : String
deriving DecidableEq, Repr

/-- A row of the Items table: oid, parent book and state flag. -/
structure ItemRow where
  oid : Int
  parentID : Int
  state : Int
deriving DecidableEq, Repr

/-- A row of the Tags table: the item it decorates, the tag name row it
points at, and the stored value. -/
structure TagRow where
  itemID : Int
  tagID : Int
  val : DBVal
deriving DecidableEq, Repr

/-- A row of the TagNames table. -/
structure TagNameRow where
  oid : Int
  tagName : String
deriving DecidableEq, Repr

/-- The annotation database: the five tables the source queries.  Each
table is a list of rows; the list order models the stable order sqlite
returns rows in for the un-ordered queries the source issues. -/
structure DB where
  books : List BookRow
  files : List FileRow
  items : List ItemRow
  tags : List TagRow
  tagNames : List TagNameRow

/-- The query of `select_items`: join Items with Tags on
`t.ItemID = i.OID` and with TagNames on `tn.OID = t.TagID`, keep rows
with the given parent, state 0, tag name `bm.type` and the given type
value, and return the `t.ItemID` column. -/
def select_items (db : DB) (book_oid : Int) (type_val : String) : List Int :=
  (db.items.filter fun i => decide (i.parentID = book_oid ∧ i.state = 0)).flatMap
    fun i =>
      (db.tags.filter fun t => decide (t.itemID = i.oid ∧ t.val = .str type_val)).flatMap
        fun t =>
          (db.tagNames.filter fun tn =>
              decide (tn.oid = t.tagID ∧ tn.tagName = "bm.type")).map
            fun _ => t.itemID

/-- The rows of the query shared by `select_quotation` and
`select_tag_value`: join Tags with TagNames on `tn.OID = t.TagID`, keep
rows of the given item whose tag name is the given one, and return the
`Val` column, in table order. -/
def tag_rows (db : DB) (item_id : Int) (tag : String) : List DBVal :=
  db.tags.flatMap fun t =>
    if t.itemID = item_id then
      (db.tagNames.filter fun tn =>
          decide (tn.oid = t.tagID ∧ tn.tagName = tag)).map
        fun _ => t.val
    else []

/-- The function `select_tag_value`: `fetchone()` on the tag query, so
the first matching row's value, or `None` when there is no row. -/
def select_tag_value (db : DB) (item_id : Int) (tag : String) : Option DBVal :=
  (tag_rows db item_id tag).head?

/-- The function `select_quotation`: fetch the first `bm.quotation`
row; `None` when there is none, otherwise `json.loads` the value and
subscript the result with `text`.  Any decode error propagates. -/
def select_quotation (db : DB) (item_id : Int) : Except PyErr (Option PyVal) :=
  match (tag_rows db item_id "bm.quotation").head? with
  | none => .ok none
  | some v =>
    match json_loads (some v) with
    | .error e => .error e
    | .ok o =>
      match pyGetItem o "text" with
      | .error e => .error e
      | .ok t => .ok (some t)

/-- The function `get_file_name`: `fetchone()` on the Files query, so
the name of the first row with the given book id, or `None`. -/
def get_file_name (db : DB) (book_oid : Int) : Option String :=
  ((db.files.filter fun f => decide (f.bookID = book_oid)).map (·.name)).head?

/-- The Highlight entity of the source: the decoded quotation text
(`None` when the item has no quotation tag) and the raw value of the
`bm.image` tag (`None` when the item has no image tag). -/
structure Highlight where
  text : Option PyVal
  snapshot : Option DBVal

/-- The Note entity of the source: the decoded quotation (optional) and
the decoded body of the `bm.note` tag. -/
structure Note where
  quotation : Option PyVal
  note : PyVal

/-- The Bookmark entity of the source: page number, optional quotation
and creation timestamp. -/
structure Bookmark where
  page : Int
  text : Option PyVal
  created : Datetime

/-- A populated Book object, as it stands after the loop in `main` has
attached the file name and the three entity lists. -/
structure Book where
  oid : Int
  title : String
  authors : Option String
  file_name : Option String
  highlights : List Highlight
  notes : List Note
  bookmarks : List Bookmark

/-- Run a fallible computation over each element of a list, collecting
the results in order; the first error propagates and abandons the rest,
exactly as an uncaught exception abandons the remainder of a Python
`for` loop. -/
def mapExcept (f : α → Except PyErr β) : List α → Except PyErr (List β)
  | [] => .ok []
  | x :: xs =>
    match f x with
    | .error e => .error e
    | .ok y =>
      match mapExcept f xs with
      | .error e => .error e
      | .ok ys => .ok (y :: ys)

/-- The body of the `get_highlights` loop: decode the quotation, fetch
the raw `bm.image` value, construct the Highlight. -/
def build_highlight (db : DB) (item_id : Int) : Except PyErr Highlight :=
  match select_quotation db item_id with
  | .error e => .error e
  | .ok text => .ok ⟨text, select_tag_value db item_id "bm.image"⟩

/-- The function `get_highlights`: one Highlight per item of type
`highlight`, in item-lookup order. -/
def get_highlights (db : DB) (book_oid : Int) : Except PyErr (List Highlight) :=
  mapExcept (build_highlight db) (select_items db book_oid "highlight")

/-- The body of the `get_notes` loop: decode the quotation, then
`json.loads` the `bm.note` value and subscript it with `text`.  A
missing tag reaches `json.loads` as `None` and raises; malformed JSON
raises; both propagate. -/
def build_note (db : DB) (item_id : Int) : Except PyErr Note :=
  match select_quotation db item_id with
  | .error e => .error e
  | .ok quotation =>
    match json_loads (select_tag_value db item_id "bm.note") with
    | .error e => .error e
    | .ok o =>
      match pyGetItem o "text" with
      | .error e => .error e
      | .ok note => .ok ⟨quotation, note⟩

/-- The function `get_notes`: one Note per item of type `note`, in
item-lookup order; any decode error propagates. -/
def get_notes (db : DB) (book_oid : Int) : Except PyErr (List Note) :=
  mapExcept (build_note db) (select_items db book_oid "note")

/-- The body of the `get_bookmarks` loop: decode the quotation, then
`json.loads` the `bm.book_mark` value, build the timestamp from its
`created` field, parse the query of its `anchor` URI and convert the
first `page` value with `int(...)`. -/
def build_bookmark (db : DB) (item_id : Int) : Except PyErr Bookmark :=
  match select_quotation db item_id with
  | .error e => .error e
  | .ok text =>
    match json_loads (select_tag_value db item_id "bm.book_mark") with
    | .error e => .error e
    | .ok o =>
      match pyGetItem o "created" with
      | .error e => .error e
      | .ok createdV =>
        match datetime_fromtimestamp createdV with
        | .error e => .error e
        | .ok created =>
          match pyGetItem o "anchor" with
          | .error e => .error e
          | .ok anchorV =>
            match expectStr anchorV with
            | .error e => .error e
            | .ok anchor =>
              match parse_qs_get (urlparse_query anchor) "page".data with
              | [] => .error (.keyError "page")
              | v :: _ =>
                match python_int v with
                | .error e => .error e
                | .ok page => .ok ⟨page, text, created⟩

/-- The function `get_bookmarks`: one Bookmark per item of type
`bookmark`, in item-lookup order; any decode error propagates. -/
def get_bookmarks (db : DB) (book_oid : Int) : Except PyErr (List Bookmark) :=
  mapExcept (build_bookmark db) (select_items db book_oid "bookmark")

/-- The HTML tree the dominate library builds: named tags with child
nodes, escaped text children, and raw unescaped fragments. -/
inductive Html where
  | tag (name : String) (children : List Html)
  | text (s : String)
  | rawNode (s : String)

/-- The base64 alphabet. -/
def b64chars : List Char :=
  "ABCDEFGHIJKLMNOPQRSTUVWXYZabcdefghijklmnopqrstuvwxyz0123456789+/".data

/-- The character of one 6-bit group. -/
def b64char (n : Nat) : Char := b64chars.getD n 'A'

/-- The standard base64 encoding of a byte list, with padding, as
`base64.b64encode` produces it. -/
def b64encode : List Nat → List Char
  | [] => []
  | [a] =>
    let a := a % 256
    [b64char (a / 4), b64char (a % 4 * 16), '=', '=']
  | [a, b] =>
    let a := a % 256
    let b := b % 256
    [b64char (a / 4), b64char (a % 4 * 16 + b / 16), b64char (b % 16 * 4), '=']
  | a :: b :: c :: rest =>
    let a := a % 256
    let b := b % 256
    let c := c % 256
    b64char (a / 4) :: b64char (a % 4 * 16 + b / 16) ::
      b64char (b % 16 * 4 + c / 64) :: b64char (c % 64) :: b64encode rest

/-- The quote character, used by the Python repr of strings. -/
def sqc : Char := Char.ofNat 39

mutual

/-- The Python `repr` of a decoded JSON value, used when such a value
is interpolated as an element of a container.  String escaping inside
the repr is simplified to plain quoting; no claim exercises it. -/
def pyRepr : PyVal → String
  | .str s => String.mk (sqc :: s.data ++ [sqc])
  | .int n => toString n
  | .bool b => if b then "True" else "False"
  | .null => "None"
  | .list xs => "[" ++ String.intercalate ", " (pyReprList xs) ++ "]"
  | .dict kvs =>
    String.mk [lbrace] ++ String.intercalate ", " (pyReprKVs kvs) ++
      String.mk [rbrace]

/-- Helper of `pyRepr` for list elements. -/
def pyReprList : List PyVal → List String
  | [] => []
  | v :: vs => pyRepr v :: pyReprList vs

/-- Helper of `pyRepr` for object members. -/
def pyReprKVs : List (String × PyVal) → List String
  | [] => []
  | (k, v) :: kvs =>
    (String.mk (sqc :: k.data ++ [sqc]) ++ ": " ++ pyRepr v) :: pyReprKVs kvs

end

/-- The Python `str` of a decoded JSON value, as an f-string or a
dominate text child renders it: a string stays itself, numbers and
literals print their Python form, containers print their repr. -/
def pyStr : PyVal → String
  | .str s => s
  | .int n => toString n
  | .bool b => if b then "True" else "False"
  | .null => "None"
  | .list xs => pyRepr (.list xs)
  | .dict kvs => pyRepr (.dict kvs)

/-- The text interpolated for an optional value in an f-string:
`None` when the value is absent. -/
def pyStrOpt : Option PyVal → String
  | none => "None"
  | some v => pyStr v

/-- The f-string form of an optional string column. -/
def pyStrOptS : Option String → String
  | none => "None"
  | some s => s

/-- The children a dominate paragraph gets from an optional text
argument: a `None` child contributes nothing. -/
def pChildren : Option PyVal → List Html
  | none => []
  | some .null => []
  | some v => [.text (pyStr v)]

/-- The method `Highlight.render`: a div holding the text paragraph and,
when a snapshot is attached, a raw inline image with the base64 bytes.
`base64.b64encode` requires a byte value; a text or integer snapshot
value would raise `TypeError`. -/
def Highlight.render (h : Highlight) : Except PyErr Html :=
  match h.snapshot with
  | none => .ok (.tag "div" [Html.tag "p" (pChildren h.text)])
  | some (.blob bs) =>
    .ok (.tag "div"
      [Html.tag "p" (pChildren h.text),
       Html.rawNode ("<img src=\"data:image/jpeg;base64," ++
         String.mk (b64encode bs) ++ "\"/>")])
  | some _ => .error .typeError

/-- The method `Note.render`: a div holding the note paragraph and the
quotation inside a blockquote. -/
def Note.render (n : Note) : Html :=
  .tag "div" [.tag "p" (pChildren (some n.note)),
              .tag "blockquote" [.tag "p" (pChildren n.quotation)]]

/-- The f-string form of the timestamp.  Modelled as a rendering of the
epoch value; no claim depends on the civil-calendar text, only on the
line being a function of the stored epoch seconds. -/
def Datetime.pyStr (d : Datetime) : String :=
  "fromtimestamp(" ++ toString d.epoch ++ ")"

/-- The method `Bookmark.render`: a div with the page, text and created
lines. -/
def Bookmark.render (b : Bookmark) : Html :=
  .tag "div" [.tag "p" [.text ("Page: " ++ toString b.page)],
              .tag "p" [.text ("Text: " ++ pyStrOpt b.text)],
              .tag "p" [.text ("Created: " ++ b.created.pyStr)]]

/-- The method `Book.render`: nothing at all when the book has no
highlights, no notes and no bookmarks; otherwise a div with the title,
the authors line when the column was not NULL, the file line, and the
three sections, each present only when its list is nonempty. -/
def Book.render (bk : Book) : Except PyErr (Option Html) :=
  if bk.highlights.isEmpty && bk.notes.isEmpty && bk.bookmarks.isEmpty then
    .ok none
  else
    let bmSection : List Html :=
      if bk.bookmarks.isEmpty then []
      else [.tag "h3" [.text "Bookmarks"],
            .tag "ol" (bk.bookmarks.map fun b => .tag "li" [b.render])]
    match mapExcept Highlight.render bk.highlights with
    | .error e => .error e
    | .ok hls =>
      let hlSection : List Html :=
        if bk.highlights.isEmpty then []
        else [.tag "h3" [.text "Highlights"],
              .tag "ol" (hls.map fun h => .tag "li" [h])]
      let ntSection : List Html :=
        if bk.notes.isEmpty then []
        else [.tag "h3" [.text "Notes"],
              .tag "ol" (bk.notes.map fun n => .tag "li" [n.render])]
      .ok (some (.tag "div"
        ([.tag "h2" [.text bk.title]] ++
         (match bk.authors with
          | some a => [Html.tag "p" [.text ("Authors: " ++ a)]]
          | none => []) ++
         [.tag "p" [.text ("File: " ++ pyStrOptS bk.file_name)]] ++
         bmSection ++ hlSection ++ ntSection)))

/-- The document `export` builds: the dominate document with the fixed
title, the body holding the section of every book that produced one. -/
def render_document (books : List Book) : Except PyErr Html :=
  match mapExcept Book.render books with
  | .error e => .error e
  | .ok secs =>
    .ok (.tag "html"
      [.tag "head" [.tag "title" [.text "PocketBook 740 export"]],
       .tag "body" (secs.reduceOption)])

mutual

/-- Escape a text child the way dominate does before serialization. -/
def escapeHtml : List Char → List Char
  | [] => []
  | '&' :: cs => "&amp;".data ++ escapeHtml cs
  | '<' :: cs => "&lt;".data ++ escapeHtml cs
  | '>' :: cs => "&gt;".data ++ escapeHtml cs
  | c :: cs => c :: escapeHtml cs

end

mutual

/-- Serialize the HTML tree to the output text.  The serializer is a
plain deterministic pretty printer; no claim depends on the exact
whitespace dominate emits, only on the serialization being a function
of the tree. -/
def htmlToString : Html → String
  | .text s => String.mk (escapeHtml s.data)
  | .rawNode s => s
  | .tag n cs => "<" ++ n ++ ">" ++ htmlListToString cs ++ "</" ++ n ++ ">"

/-- Serialize a list of sibling nodes. -/
def htmlListToString : List Html → String
  | [] => ""
  | h :: t => htmlToString h ++ htmlListToString t

end

/-- An observable effect of the program on the world outside the
database: writing a file. -/
inductive Effect where
  | write (path : String) (content : String)

/-- The function `export`: build the document, then open the output
path and write the serialized text.  The `open` happens only in the
final step, after every render has succeeded. -/
def export_run (books : List Book) (path : String) : Except PyErr (List Effect) :=
  match render_document books with
  | .error e => .error e
  | .ok doc => .ok [.write path (htmlToString doc)]

/-- The body of the loop of `main`: construct the Book of one row of
the Books table and attach its file name, highlights, notes and
bookmarks, in the order of the source; the first uncaught error
abandons the rest of the body. -/
def populate_book (db : DB) (row : BookRow) : Except PyErr Book :=
  match get_highlights db row.oid with
  | .error e => .error e
  | .ok hs =>
    match get_notes db row.oid with
    | .error e => .error e
    | .ok ns =>
      match get_bookmarks db row.oid with
      | .error e => .error e
      | .ok bms =>
        .ok ⟨row.oid, row.title, row.authors, get_file_name db row.oid, hs, ns, bms⟩

/-- The loop of `main` over the rows of the Books table. -/
def extract_books (db : DB) : Except PyErr (List Book) :=
  mapExcept (populate_book db) db.books

/-- The whole program: extract every book, then export.  The `clock`
argument stands for the ambient wall-clock of the machine; no operation
of the source consults it, which the theorem on determinism makes
explicit.  The result is the list of file writes the run performed and
the error that aborted it, if one did: an aborted run has performed no
write, because the single write of `export` happens last. -/
def main_run (db : DB) (_clock : Int) : List Effect × Option PyErr :=
  match extract_books db with
  | .error e => ([], some e)
  | .ok books =>
    match export_run books "export.html" with
    | .error e => ([], some e)
    | .ok fx => (fx, none)

mutual

/-- The text children of an HTML tree, in document order: what a reader
of the serialized document sees as plain text. -/
def htmlTexts : Html → List String
  | .text s => [s]
  | .rawNode _ => []
  | .tag _ cs => htmlTextsList cs

/-- The text children of a list of sibling nodes. -/
def htmlTextsList : List Html → List String
  | [] => []
  | h :: t => htmlTexts h ++ htmlTextsList t

end

/-- Modelled from the spec words of the tag lookup: the values of
exactly those Tags rows of the item whose tag name resolves, through
TagNames, to the requested name, in table order.  Compared against the
embedded query `select_tag_value` by the theorem on the lookup. -/
def matching_tag_values (db : DB) (item_id : Int) (tag : String) : List DBVal :=
  (db.tags.filter fun t =>
      decide (t.itemID = item_id ∧
        ∃ tn ∈ db.tagNames, tn.oid = t.tagID ∧ tn.tagName = tag)).map
    (·.val)

/-- A store holding one book with two notes, the first of which carries
a malformed `bm.note` JSON value, one well-formed sibling note, and one
well-formed sibling highlight. -/
def dbNotesBad : DB where
  books := [⟨1, "Book One", some "Author A"⟩]
  files := [⟨1, "book.epub"⟩]
  items := [⟨10, 1, 0⟩, ⟨11, 1, 0⟩, ⟨12, 1, 0⟩]
  tags :=
    [⟨10, 100, .str "note"⟩, ⟨10, 101, .str "\x7b"⟩,
     ⟨11, 100, .str "note"⟩, ⟨11, 101, .str "\x7b\"text\": \"good note\"\x7d"⟩,
     ⟨12, 100, .str "highlight"⟩, ⟨12, 102, .str "\x7b\"text\": \"a passage\"\x7d"⟩]
  tagNames := [⟨100, "bm.type"⟩, ⟨101, "bm.note"⟩, ⟨102, "bm.quotation"⟩]

/-- A store holding one book with a single highlight whose quotation
decodes to the literal marker text `Snapshot` and which carries a
`bm.image` tag with raw bytes 1, 2, 3. -/
def dbSnap : DB where
  books := [⟨2, "Book Two", none⟩]
  files := []
  items := [⟨20, 2, 0⟩]
  tags :=
    [⟨20, 100, .str "highlight"⟩,
     ⟨20, 102, .str "\x7b\"text\": \"Snapshot\"\x7d"⟩,
     ⟨20, 103, .blob [1, 2, 3]⟩]
  tagNames := [⟨100, "bm.type"⟩, ⟨102, "bm.quotation"⟩, ⟨103, "bm.image"⟩]

/-- A well-formed store: one book with a text highlight, a bare
highlight item carrying no tag besides its type, a note, a bookmark
whose anchor holds the page among other query parameters, one
soft-deleted highlight item and one item of another book. -/
def dbGood : DB where
  books := [⟨1, "Good Book", some "Ann Author"⟩]
  files := [⟨1, "good.epub"⟩]
  items := [⟨10, 1, 0⟩, ⟨11, 1, 0⟩, ⟨12, 1, 0⟩, ⟨13, 1, 0⟩, ⟨14, 1, 1⟩, ⟨15, 2, 0⟩]
  tags :=
    [⟨10, 100, .str "highlight"⟩, ⟨10, 102, .str "\x7b\"text\": \"Hello world\"\x7d"⟩,
     ⟨11, 100, .str "highlight"⟩,
     ⟨12, 100, .str "note"⟩, ⟨12, 102, .str "\x7b\"text\": \"quoted\"\x7d"⟩,
     ⟨12, 101, .str "\x7b\"text\": \"my note\"\x7d"⟩,
     ⟨13, 100, .str "bookmark"⟩,
     ⟨13, 104, .str "\x7b\"created\": 1700000000, \"anchor\": \"pbr:/word?para=7&page=42&off=3\"\x7d"⟩,
     ⟨14, 100, .str "highlight"⟩,
     ⟨15, 100, .str "highlight"⟩]
  tagNames :=
    [⟨100, "bm.type"⟩, ⟨101, "bm.note"⟩, ⟨102, "bm.quotation"⟩,
     ⟨103, "bm.image"⟩, ⟨104, "bm.book_mark"⟩]

/-- The highlights the well-formed store yields for book 1. -/
def hsGood : List Highlight :=
  [⟨some (.str "Hello world"), none⟩, ⟨none, none⟩]

/-- A populated Book carrying one text highlight, used to exercise the
renderer. -/
def bGood : Book where
  oid := 1
  title := "Good Book"
  authors := some "Ann Author"
  file_name := some "good.epub"
  highlights := [⟨some (.str "Hello world"), none⟩]
  notes := []
  bookmarks := []

/-- The section the renderer emits for `bGood`. -/
def hGood : Html :=
  .tag "div"
    [.tag "h2" [.text "Good Book"],
     .tag "p" [.text "Authors: Ann Author"],
     .tag "p" [.text "File: good.epub"],
     .tag "h3" [.text "Highlights"],
     .tag "ol" [.tag "li" [.tag "div" [.tag "p" [.text "Hello world"]]]]]

theorem mapExcept_ok_length {α β : Type} {f : α → Except PyErr β} {xs : List α}
    {ys : List β} (h : mapExcept f xs = .ok ys) : ys.length = xs.length := by
  induction xs generalizing ys with
  | nil =>
    simp only [mapExcept] at h
    cases h
    rfl
  | cons x xs ih =>
    simp only [mapExcept] at h
    cases hfx : f x with
    | error e => rw [hfx] at h; exact absurd h (by simp)
    | ok y =>
      rw [hfx] at h
      cases hrec : mapExcept f xs with
      | error e => rw [hrec] at h; exact absurd h (by simp)
      | ok ys2 =>
        rw [hrec] at h
        cases h
        simp [ih hrec]

theorem mapExcept_ok_get {α β : Type} {f : α → Except PyErr β} {xs : List α}
    {ys : List β} (h : mapExcept f xs = .ok ys) :
    ∀ i (h1 : i < xs.length) (h2 : i < ys.length),
      f (xs.get ⟨i, h1⟩) = .ok (ys.get ⟨i, h2⟩) := by
  induction xs generalizing ys with
  | nil => intro i h1 _; exact absurd h1 (by simp)
  | cons x xs ih =>
    simp only [mapExcept] at h
    cases hfx : f x with
    | error e => rw [hfx] at h; exact absurd h (by simp)
    | ok y =>
      rw [hfx] at h
      cases hrec : mapExcept f xs with
      | error e => rw [hrec] at h; exact absurd h (by simp)
      | ok ys2 =>
        rw [hrec] at h
        cases h
        intro i h1 h2
        cases i with
        | zero => simpa using hfx
        | succ j =>
          simpa using ih hrec j (by simpa using h1) (by simpa using h2)

theorem mapExcept_error_of_mem {α β : Type} {f : α → Except PyErr β} {xs : List α}
    {x : α} {e : PyErr} (hmem : x ∈ xs) (hbad : f x = .error e) :
    ∃ e2, mapExcept f xs = .error e2 := by
  induction xs with
  | nil => exact absurd hmem (by simp)
  | cons z zs ih =>
    rcases List.mem_cons.mp hmem with hz | hz
    · subst hz
      exact ⟨e, by simp [mapExcept, hbad]⟩
    · cases hfz : f z with
      | error e3 => exact ⟨e3, by simp [mapExcept, hfz]⟩
      | ok y =>
        obtain ⟨e2, hrec⟩ := ih hz
        exact ⟨e2, by simp [mapExcept, hfz, hrec]⟩

theorem mapExcept_ok_of_all {α β : Type} {f : α → Except PyErr β} {xs : List α}
    (h : ∀ x ∈ xs, ∃ y, f x = .ok y) : ∃ ys, mapExcept f xs = .ok ys := by
  induction xs with
  | nil => exact ⟨[], rfl⟩
  | cons x xs ih =>
    obtain ⟨y, hy⟩ := h x (by simp)
    obtain ⟨ys, hys⟩ := ih fun z hz => h z (by simp [hz])
    exact ⟨y :: ys, by simp [mapExcept, hy, hys]⟩

/-- C8: running the export twice on the same unchanged store produces
identical output: the run is a function of the store alone, and in
particular the ambient wall-clock argument, which no operation of the
source consults, does not influence the effects or the outcome. -/
theorem export_is_deterministic (db : DB) (clock1 clock2 : Int) :
    main_run db clock1 = main_run db clock2 := rfl

/-- C10: an aborted run performs no file write: the single write of
`export` is produced only after every book has been extracted and the
whole document has been rendered, so a run that ends in an error has an
empty effect list, and a pre-existing file at the output path is left
untouched. -/
theorem failed_run_writes_nothing (db : DB) (clock : Int) (fx : List Effect)
    (e : PyErr) (h : main_run db clock = (fx, some e)) : fx = [] := by
  unfold main_run at h
  split at h
  · injection h with h1 h2
    exact h1.symm
  · split at h
    · injection h with h1 h2
      exact h1.symm
    · injection h with h1 h2
      exact absurd h2 (by simp)

theorem failed_run_writes_nothing_witness :
    main_run dbNotesBad 0 = ([], some PyErr.jsonDecodeError) ∧ ([] : List Effect) = [] :=
  ⟨rfl, failed_run_writes_nothing dbNotesBad 0 [] PyErr.jsonDecodeError rfl⟩

/-- C5: the item lookup returns exactly the identifiers of items whose
parent is the given book, whose state is the active state 0, and which
carry a `bm.type` tag equal to the given type value; an item with a
different parent, a non-active state or a different type value is never
returned. -/
theorem select_items_characterization (db : DB) (book_oid : Int) (type_val : String)
    (id : Int) :
    id ∈ select_items db book_oid type_val ↔
      (∃ i ∈ db.items, i.oid = id ∧ i.parentID = book_oid ∧ i.state = 0) ∧
      ∃ t ∈ db.tags, t.itemID = id ∧ t.val = .str type_val ∧
        ∃ tn ∈ db.tagNames, tn.oid = t.tagID ∧ tn.tagName = "bm.type" := by
  unfold select_items
  simp only [List.mem_flatMap, List.mem_filter, List.mem_map, decide_eq_true_eq]
  constructor
  · rintro ⟨i, ⟨hi, hip, his⟩, t, ⟨ht, hti, htv⟩, tn, ⟨htn, htno, htnn⟩, rfl⟩
    exact ⟨⟨i, hi, hti.symm, hip, his⟩, t, ht, rfl, htv, tn, htn, htno, htnn⟩
  · rintro ⟨⟨i, hi, hio, hip, his⟩, t, ht, hti, htv, tn, htn, htno, htnn⟩
    exact ⟨i, ⟨hi, hip, his⟩, t, ⟨ht, by rw [hti, hio], htv⟩, tn, ⟨htn, htno, htnn⟩, hti⟩

/-- C7: the tag-value lookup returns the value of the first matching
tag row of the item, and `none` when the item carries no such tag;
extra values for the same tag name are ignored and no error is raised
in either case.  The right-hand side is the list of matching values
written from the spec words, so the lookup agrees with taking the head
of that list. -/
theorem tag_lookup_first_value (db : DB) (item_id : Int) (tag : String) :
    select_tag_value db item_id tag = (matching_tag_values db item_id tag).head? := by
  unfold select_tag_value matching_tag_values tag_rows
  generalize db.tags = ts
  induction ts with
  | nil => rfl
  | cons t ts ih =>
    simp only [List.flatMap_cons]
    by_cases h1 : t.itemID = item_id
    · rw [if_pos h1]
      cases hq : db.tagNames.filter (fun tn => decide (tn.oid = t.tagID ∧ tn.tagName = tag)) with
      | nil =>
        have hno : ¬(t.itemID = item_id ∧ ∃ tn ∈ db.tagNames, tn.oid = t.tagID ∧ tn.tagName = tag) := by
          rintro ⟨-, tn, htn, h2, h3⟩
          have := List.filter_eq_nil_iff.mp hq tn htn
          simp [h2, h3] at this
        rw [List.filter_cons_of_neg (by simpa using hno)]
        simpa using ih
      | cons tn0 tns =>
        have hyes : (t.itemID = item_id ∧ ∃ tn ∈ db.tagNames, tn.oid = t.tagID ∧ tn.tagName = tag) := by
          refine ⟨h1, tn0, ?_⟩
          have hmem : tn0 ∈ db.tagNames.filter (fun tn => decide (tn.oid = t.tagID ∧ tn.tagName = tag)) := by
            rw [hq]; exact List.mem_cons_self _ _
          have h2 := List.mem_filter.mp hmem
          exact ⟨h2.1, by simpa using h2.2⟩
        rw [List.filter_cons_of_pos (by simpa using hyes)]
        simp
    · rw [if_neg h1]
      have hno : ¬(t.itemID = item_id ∧ ∃ tn ∈ db.tagNames, tn.oid = t.tagID ∧ tn.tagName = tag) :=
        fun hc => h1 hc.1
      rw [List.filter_cons_of_neg (by simpa using hno)]
      simpa using ih

/-- C6: for each of the three annotation kinds, a successful extraction
yields exactly one entity per item id, and the i-th entity of the
result is the one built from the i-th item id of the lookup: the
entities preserve the order of the item-id lookup. -/
theorem entities_preserve_item_order (db : DB) (b : Int) :
    (∀ hs, get_highlights db b = .ok hs →
       hs.length = (select_items db b "highlight").length ∧
       ∀ i (h1 : i < (select_items db b "highlight").length) (h2 : i < hs.length),
         build_highlight db ((select_items db b "highlight").get ⟨i, h1⟩) = .ok (hs.get ⟨i, h2⟩)) ∧
    (∀ ns, get_notes db b = .ok ns →
       ns.length = (select_items db b "note").length ∧
       ∀ i (h1 : i < (select_items db b "note").length) (h2 : i < ns.length),
         build_note db ((select_items db b "note").get ⟨i, h1⟩) = .ok (ns.get ⟨i, h2⟩)) ∧
    (∀ bms, get_bookmarks db b = .ok bms →
       bms.length = (select_items db b "bookmark").length ∧
       ∀ i (h1 : i < (select_items db b "bookmark").length) (h2 : i < bms.length),
         build_bookmark db ((select_items db b "bookmark").get ⟨i, h1⟩) = .ok (bms.get ⟨i, h2⟩)) :=
  ⟨fun _ h => ⟨mapExcept_ok_length h, fun i h1 h2 => mapExcept_ok_get h i h1 h2⟩,
   fun _ h => ⟨mapExcept_ok_length h, fun i h1 h2 => mapExcept_ok_get h i h1 h2⟩,
   fun _ h => ⟨mapExcept_ok_length h, fun i h1 h2 => mapExcept_ok_get h i h1 h2⟩⟩

/-- Witness for C6 at the well-formed store: the two highlight items of
book 1 yield two highlights, and the first one is built from item 10. -/
theorem entities_preserve_item_order_witness :
    hsGood.length = (select_items dbGood 1 "highlight").length ∧
    build_highlight dbGood 10 = .ok ⟨some (.str "Hello world"), none⟩ := by
  have h := (entities_preserve_item_order dbGood 1).1 hsGood rfl
  exact ⟨h.1, h.2 0 (by decide) (by decide)⟩

theorem build_highlight_ok_parts {db : DB} {item_id : Int} {h : Highlight}
    (hb : build_highlight db item_id = .ok h) :
    select_quotation db item_id = .ok h.text ∧
    h.snapshot = select_tag_value db item_id "bm.image" := by
  unfold build_highlight at hb
  cases hq : select_quotation db item_id with
  | error e => rw [hq] at hb; cases hb
  | ok t => rw [hq] at hb; cases hb; exact ⟨rfl, rfl⟩

/-- C9: the highlight builder never skips an item: whenever every
present quotation value of the book decodes, the result has exactly one
Highlight per looked-up item id, each carrying the decoded quotation
(absent when the item has no quotation tag) and the raw image value
(absent when the item has no image tag), so an item with neither tag
still yields a Highlight with both fields absent. -/
theorem highlights_one_per_item (db : DB) (b : Int)
    (hq : ∀ id ∈ select_items db b "highlight", ∃ r, select_quotation db id = .ok r) :
    ∃ hs, get_highlights db b = .ok hs ∧
      hs.length = (select_items db b "highlight").length ∧
      ∀ i (h1 : i < (select_items db b "highlight").length) (h2 : i < hs.length),
        select_quotation db ((select_items db b "highlight").get ⟨i, h1⟩) =
          .ok ((hs.get ⟨i, h2⟩).text) ∧
        (hs.get ⟨i, h2⟩).snapshot =
          select_tag_value db ((select_items db b "highlight").get ⟨i, h1⟩) "bm.image" := by
  have hall : ∀ id ∈ select_items db b "highlight", ∃ y, build_highlight db id = .ok y := by
    intro id hid
    obtain ⟨r, hr⟩ := hq id hid
    exact ⟨⟨r, select_tag_value db id "bm.image"⟩, by unfold build_highlight; rw [hr]⟩
  obtain ⟨hs, hhs⟩ := mapExcept_ok_of_all hall
  exact ⟨hs, hhs, mapExcept_ok_length hhs, fun i h1 h2 =>
    build_highlight_ok_parts (mapExcept_ok_get hhs i h1 h2)⟩

/-- Witness for C9 at the well-formed store: book 1 has a highlight
item with a quotation and a bare one with no tags beyond its type; both
decode, so the builder yields one Highlight per item. -/
theorem highlights_one_per_item_witness :
    ∃ hs, get_highlights dbGood 1 = .ok hs ∧
      hs.length = (select_items dbGood 1 "highlight").length ∧
      ∀ i (h1 : i < (select_items dbGood 1 "highlight").length) (h2 : i < hs.length),
        select_quotation dbGood ((select_items dbGood 1 "highlight").get ⟨i, h1⟩) =
          .ok ((hs.get ⟨i, h2⟩).text) ∧
        (hs.get ⟨i, h2⟩).snapshot =
          select_tag_value dbGood ((select_items dbGood 1 "highlight").get ⟨i, h1⟩) "bm.image" := by
  refine highlights_one_per_item dbGood 1 ?_
  intro id hid
  have hsel : select_items dbGood 1 "highlight" = [10, 11] := rfl
  rw [hsel] at hid
  simp only [List.mem_cons, List.not_mem_nil, or_false] at hid
  rcases hid with rfl | rfl
  · exact ⟨some (.str "Hello world"), rfl⟩
  · exact ⟨none, rfl⟩

theorem populate_book_error_of_notes {db : DB} {row : BookRow} {e : PyErr}
    (h : get_notes db row.oid = .error e) : ∃ e2, populate_book db row = .error e2 := by
  unfold populate_book
  cases hh : get_highlights db row.oid with
  | error e3 => exact ⟨e3, rfl⟩
  | ok hs => exact ⟨e, by rw [h]⟩

/-- Counterexample to C1: in the store `dbNotesBad` the `bm.note` value
of item 10 is malformed JSON, and contrary to the claim the failure is
not confined to that one annotation: `get_notes` raises, the run fails,
and the well-formed sibling note of item 11 and the sibling highlight
of item 12 are absent from the output, because no output is produced at
all. -/
theorem note_decode_error_drops_siblings_counterexample :
    get_notes dbNotesBad 1 = .error .jsonDecodeError ∧
    main_run dbNotesBad 0 = ([], some .jsonDecodeError) := ⟨rfl, rfl⟩

/-- C1 as amended: a malformed `bm.note` value (or any failing decode
step of a note item) makes `get_notes` raise for the whole book; the
error propagates out of `main`, the run fails, and no output file is
written.  There is no per-item recovery in the source. -/
theorem note_decode_error_aborts_run (db : DB) (b item_id : Int) (e : PyErr)
    (hrow : ∃ row ∈ db.books, row.oid = b)
    (hmem : item_id ∈ select_items db b "note")
    (hbad : build_note db item_id = .error e) :
    (∃ e1, get_notes db b = .error e1) ∧
    ∀ clock, ∃ e2, main_run db clock = ([], some e2) := by
  obtain ⟨e1, hge⟩ := mapExcept_error_of_mem hmem hbad
  refine ⟨⟨e1, hge⟩, fun clock => ?_⟩
  obtain ⟨row, hrowmem, hoid⟩ := hrow
  obtain ⟨e3, hpb⟩ := populate_book_error_of_notes (e := e1) (by rw [hoid]; exact hge)
  obtain ⟨e4, hee⟩ := mapExcept_error_of_mem hrowmem hpb
  have hex : extract_books db = Except.error e4 := hee
  exact ⟨e4, by unfold main_run; rw [hex]⟩

/-- Witness for the amended C1 at the concrete store with the malformed
note value. -/
theorem note_decode_error_aborts_run_witness :
    (∃ e1, get_notes dbNotesBad 1 = .error e1) ∧
    ∀ clock, ∃ e2, main_run dbNotesBad clock = ([], some e2) :=
  note_decode_error_aborts_run dbNotesBad 1 10 .jsonDecodeError
    (by decide) (by decide) rfl

theorem digit_not_space {c : Char} (h : c.isDigit = true) : isPySpace c = false := by
  unfold isPySpace
  rw [decide_eq_false_iff_not]
  rintro (rfl | rfl | rfl | rfl | rfl | rfl) <;> exact absurd h (by decide)

theorem dropWhile_space_of_digits {ds : List Char} (h : ds.all (·.isDigit) = true) :
    ds.dropWhile isPySpace = ds := by
  cases ds with
  | nil => rfl
  | cons d t =>
    have hd : d.isDigit = true := by
      simp only [List.all_cons, Bool.and_eq_true] at h
      exact h.1
    rw [List.dropWhile_cons, digit_not_space hd]
    simp

theorem pyStrip_digits {ds : List Char} (h : ds.all (·.isDigit) = true) :
    pyStrip ds = ds := by
  unfold pyStrip
  rw [dropWhile_space_of_digits h, dropWhile_space_of_digits (by simpa using h),
    List.reverse_reverse]

theorem python_int_digits {ds : List Char} (hne : ds ≠ [])
    (hdig : ds.all (·.isDigit) = true) :
    python_int ds = .ok (digitsToNat ds : Int) := by
  unfold python_int
  rw [pyStrip_digits hdig]
  split
  · simp only [List.all_cons, Bool.and_eq_true] at hdig
    exact absurd hdig.1 (by decide)
  · simp only [List.all_cons, Bool.and_eq_true] at hdig
    exact absurd hdig.1 (by decide)
  · rw [if_pos ⟨hne, hdig⟩]

/-- C3: a bookmark whose decoded `bm.book_mark` object carries the
epoch value c and an anchor URI whose query string gives the `page` key
the digits of n as its first value is constructed with page = n and the
timestamp decoded from c, whatever other query parameters surround the
page key and in whatever order they appear. -/
theorem bookmark_page_from_anchor_query (db : DB) (item_id : Int)
    (o : PyVal) (c : Int) (anchor : String) (t : Option PyVal) (ds : List Char) (n : Nat)
    (hq : select_quotation db item_id = .ok t)
    (hj : json_loads (select_tag_value db item_id "bm.book_mark") = .ok o)
    (hc : pyGetItem o "created" = .ok (.int c))
    (ha : pyGetItem o "anchor" = .ok (.str anchor))
    (hp : (parse_qs_get (urlparse_query anchor) "page".data).head? = some ds)
    (hne : ds ≠ []) (hdig : ds.all (·.isDigit) = true) (hval : digitsToNat ds = n) :
    build_bookmark db item_id = .ok ⟨(n : Int), t, ⟨c⟩⟩ := by
  unfold build_bookmark
  simp only [hq, hj, hc, ha, datetime_fromtimestamp, expectStr]
  cases hl : parse_qs_get (urlparse_query anchor) "page".data with
  | nil => rw [hl] at hp; cases hp
  | cons v vs =>
    rw [hl] at hp
    simp only [List.head?_cons, Option.some.injEq] at hp
    subst hp
    simp only [python_int_digits hne hdig, hval]

/-- Witness for C3 at the well-formed store: the anchor of item 13 is
`pbr:/word?para=7&page=42&off=3`, and the bookmark is built with page
42 among the surrounding parameters and the timestamp of the stored
epoch value. -/
theorem bookmark_page_from_anchor_query_witness :
    build_bookmark dbGood 13 = .ok ⟨(42 : Nat), none, ⟨1700000000⟩⟩ :=
  bookmark_page_from_anchor_query dbGood 13
    (.dict [("created", .int 1700000000), ("anchor", .str "pbr:/word?para=7&page=42&off=3")])
    1700000000 "pbr:/word?para=7&page=42&off=3" none "42".data 42
    rfl rfl rfl rfl rfl (by decide) (by decide) (by decide)

theorem htmlTextsList_append (a b : List Html) :
    htmlTextsList (a ++ b) = htmlTextsList a ++ htmlTextsList b := by
  induction a with
  | nil => rfl
  | cons x xs ih => simp [htmlTextsList, ih]

/-- C4: a book with no highlights, no notes and no bookmarks produces
no output section at all, and a book with at least one annotation has
its title, its authors line when the column is present, and its file
line among the text of its section. -/
theorem empty_book_renders_nothing (b : Book) :
    (Book.render b = .ok none ↔ b.highlights = [] ∧ b.notes = [] ∧ b.bookmarks = []) ∧
    (∀ h, Book.render b = .ok (some h) →
      b.title ∈ htmlTexts h ∧
      (∀ a, b.authors = some a → ("Authors: " ++ a) ∈ htmlTexts h) ∧
      ("File: " ++ pyStrOptS b.file_name) ∈ htmlTexts h) := by
  unfold Book.render
  by_cases hE : (b.highlights.isEmpty && b.notes.isEmpty && b.bookmarks.isEmpty) = true
  · rw [if_pos hE]
    simp only [Bool.and_eq_true, List.isEmpty_iff] at hE
    refine ⟨⟨fun _ => ⟨hE.1.1, hE.1.2, hE.2⟩, fun _ => rfl⟩, fun h hcontra => ?_⟩
    exact Option.noConfusion (Except.ok.inj hcontra)
  · rw [if_neg hE]
    have hne : ¬(b.highlights = [] ∧ b.notes = [] ∧ b.bookmarks = []) := by
      rintro ⟨h1, h2, h3⟩
      exact hE (by simp [h1, h2, h3])
    cases hm : mapExcept Highlight.render b.highlights with
    | error e =>
      exact ⟨iff_of_false (fun hcontra => Except.noConfusion hcontra) hne,
        fun h hcontra => Except.noConfusion hcontra⟩
    | ok hls =>
      refine ⟨iff_of_false (fun hcontra => Option.noConfusion (Except.ok.inj hcontra)) hne,
        fun h hcontra => ?_⟩
      have h2 := Option.some.inj (Except.ok.inj hcontra)
      subst h2
      refine ⟨?_, ?_, ?_⟩
      · simp [htmlTexts, htmlTextsList, htmlTextsList_append]
      · intro a ha
        simp [htmlTexts, htmlTextsList, htmlTextsList_append, ha]
      · simp [htmlTexts, htmlTextsList, htmlTextsList_append]

/-- Witness for C4 at a populated book with one highlight: its section
carries the title, authors and file lines. -/
theorem empty_book_renders_nothing_witness :
    "Good Book" ∈ htmlTexts hGood ∧
    ("Authors: " ++ "Ann Author") ∈ htmlTexts hGood ∧
    ("File: " ++ pyStrOptS (some "good.epub")) ∈ htmlTexts hGood := by
  have h := (empty_book_renders_nothing bGood).2 hGood rfl
  exact ⟨h.1, h.2.1 "Ann Author" rfl, h.2.2⟩

/-- Counterexample to C2: in the store `dbSnap` the single highlight
decodes to the marker text `Snapshot` and carries image bytes 1, 2, 3,
and contrary to the claim its rendered output does contain a text line:
the literal string `Snapshot` appears as the text of the paragraph that
precedes the embedded image, because the source renders `p(self.text)`
unconditionally and gives the marker no special handling. -/
theorem snapshot_marker_counterexample :
    get_highlights dbSnap 2 = .ok [⟨some (.str "Snapshot"), some (.blob [1, 2, 3])⟩] ∧
    Highlight.render ⟨some (.str "Snapshot"), some (.blob [1, 2, 3])⟩ =
      .ok (.tag "div" [.tag "p" [.text "Snapshot"],
        .rawNode "<img src=\"data:image/jpeg;base64,AQID\"/>"]) ∧
    "Snapshot" ∈ htmlTexts (.tag "div" [.tag "p" [.text "Snapshot"],
      .rawNode "<img src=\"data:image/jpeg;base64,AQID\"/>"]) :=
  ⟨rfl, rfl, by decide⟩

/-- C2 as amended: a highlight whose quotation text is present (the
marker string `Snapshot` included) and whose `bm.image` tag holds raw
bytes renders as a div holding the text paragraph followed by the
embedded base64 image: the image is embedded, and the quotation text is
rendered as well rather than suppressed. -/
theorem snapshot_highlight_renders_text_and_image (t : String) (bs : List Nat) :
    Highlight.render ⟨some (.str t), some (.blob bs)⟩ =
      .ok (.tag "div" [.tag "p" [.text t],
        .rawNode ("<img src=\"data:image/jpeg;base64," ++
          String.mk (b64encode bs) ++ "\"/>")]) := rfl
